import Mathlib

/-!
Verification of the Woice-Input speech-to-text pipeline.

Shallow embedding of the core components of the repository:
* `SileroVAD` — the stateful voice-activity model wrapper (`src/vad.py`),
  with the ONNX inference call abstracted as a parameter.
* `check_voice_activity` — frame slicing of an audio chunk for the VAD
  (`src/desktop_app.py`, `SimpleSTTApp._check_voice_activity`).
* `continuous_step` / `continuous_run` / `continuous_session` — the
  continuous-mode segmentation state machine
  (`src/desktop_app.py`, `SimpleSTTApp._continuous_loop`).
* `transcribe_with_google` and `transcribe_audio` — the recognition and
  enhancement pipeline (`src/transcription.py`), with the external
  collaborators' outcomes as parameters.
* `FloatingOverlay.auto_hide` — the overlay auto-hide step (`overlay.py`).

Audio samples are modelled as rationals; durations (Python floats holding
multiples of 0.1 s and thresholds in seconds) are modelled as exact
rationals.
-/

namespace Woice

/-! ## Silero VAD wrapper (`src/vad.py`) -/

namespace SileroVAD

/-- Constant `self._context_size = 64` — samples of trailing context at 16 kHz. -/
def context_size : ℕ := 64

/-- Constant `self._num_samples = 512` — samples per frame at 16 kHz. -/
def num_samples : ℕ := 512

/-- The mutable state of a `SileroVAD` instance: the hidden-state tensor
`self._state` (shape `(2, 1, 128)`, flattened to 256 entries) and the
trailing context window `self._context` (64 samples). -/
structure State where
  state : List ℚ
  context : List ℚ
deriving DecidableEq, Repr

/-- Method `SileroVAD.reset_states`: zero the hidden state and the context. -/
def reset_states : State :=
  { state := List.replicate 256 0, context := List.replicate context_size 0 }

/-- Method `SileroVAD.process`: validate the frame size, prepend the context to the
frame, run inference (abstracted as `infer`, standing for
`self.session.run`, which returns the probability output and the new
hidden state), then store the new hidden state and the trailing
`context_size` samples of the inference input as the new context.
A frame of the wrong size raises `ValueError` — modelled as an error
result with the state unchanged. -/
def process (infer : List ℚ → List ℚ → ℚ × List ℚ) (s : State)
    (audio_chunk : List ℚ) : State × Except String ℚ :=
  if audio_chunk.length ≠ num_samples then
    (s, .error "InvalidFrameSize: expected 512 samples")
  else
    let x := s.context ++ audio_chunk
    let out := infer x s.state
    ({ state := out.2, context := x.drop (x.length - context_size) }, .ok out.1)

end SileroVAD

/-! ## Voice-activity check (`SimpleSTTApp._check_voice_activity`) -/

/-- The 512-sample frames the loop
`for i in range(0, len(audio_chunk) - 511, 512)` extracts from a chunk:
consecutive full frames from the start; any trailing partial frame is
not extracted. -/
def framesOf (audio_chunk : List ℚ) : List (List ℚ) :=
  if h : 512 ≤ audio_chunk.length then
    audio_chunk.take 512 :: framesOf (audio_chunk.drop 512)
  else []
termination_by audio_chunk.length
decreasing_by simp only [List.length_drop]; omega

/-- The `max_prob` fold of `_check_voice_activity`: run the (stateful) VAD
on each frame in order, threading the VAD state, and keep the maximum
probability (started at `0.0`). -/
def vadMaxProb {σ : Type} (step : σ → List ℚ → ℚ × σ) :
    List (List ℚ) → σ → ℚ → ℚ × σ
  | [], s, max_prob => (max_prob, s)
  | f :: fs, s, max_prob =>
    let r := step s f
    vadMaxProb step fs r.2 (max max_prob r.1)

/-- Method `SimpleSTTApp._check_voice_activity`, Silero branch: slice the chunk
into full 512-sample frames, run the VAD on each (`step` stands for
`self.vad.process`, threading the VAD instance's state `σ`), and return
whether the maximum probability reaches `vad_threshold`. -/
def check_voice_activity {σ : Type} (step : σ → List ℚ → ℚ × σ)
    (vad_threshold : ℚ) (s : σ) (audio_chunk : List ℚ) : Bool × σ :=
  let r := vadMaxProb step (framesOf audio_chunk) s 0
  (decide (vad_threshold ≤ r.1), r.2)

theorem framesOf_eq_nil {audio_chunk : List ℚ} (h : audio_chunk.length < 512) :
    framesOf audio_chunk = [] := by
  rw [framesOf]
  simp only [dif_neg (by omega : ¬ 512 ≤ audio_chunk.length)]

theorem framesOf_eq_cons {audio_chunk : List ℚ} (h : 512 ≤ audio_chunk.length) :
    framesOf audio_chunk = audio_chunk.take 512 :: framesOf (audio_chunk.drop 512) := by
  rw [framesOf]
  simp only [dif_pos h]

theorem framesOf_append_aux : ∀ (n : ℕ) (full rest : List ℚ),
    full.length = n → 512 ∣ full.length → rest.length < 512 →
    framesOf (full ++ rest) = framesOf full := by
  intro n
  induction n using Nat.strong_induction_on with
  | _ n ih =>
    intro full rest hfl hdvd hrest
    by_cases h : 512 ≤ full.length
    · have hlen : 512 ≤ (full ++ rest).length := by
        simp only [List.length_append]; omega
      rw [framesOf_eq_cons hlen, framesOf_eq_cons h]
      have htake : (full ++ rest).take 512 = full.take 512 :=
        List.take_append_of_le_length h
      have hdrop : (full ++ rest).drop 512 = full.drop 512 ++ rest :=
        List.drop_append_of_le_length h
      rw [htake, hdrop]
      have hdvd' : 512 ∣ (full.drop 512).length := by
        simp only [List.length_drop]
        exact (Nat.dvd_sub' hdvd (dvd_refl 512))
      rw [ih (full.drop 512).length (by simp only [List.length_drop]; omega)
        (full.drop 512) rest rfl hdvd' hrest]
    · have hz : full.length = 0 := by
        rcases hdvd with ⟨k, hk⟩
        rcases Nat.eq_zero_or_pos k with hk0 | hk0
        · omega
        · exfalso; omega
      have : full = [] := List.eq_nil_of_length_eq_zero hz
      subst this
      simp only [List.nil_append]
      rw [framesOf_eq_nil hrest, framesOf_eq_nil (by simp)]

/-- Trailing samples beyond the last full 512-sample frame contribute no
frame: appending fewer than 512 samples to a chunk whose length is a
multiple of 512 leaves the extracted frame list unchanged. -/
theorem framesOf_append (full rest : List ℚ) (hdvd : 512 ∣ full.length)
    (hrest : rest.length < 512) : framesOf (full ++ rest) = framesOf full :=
  framesOf_append_aux full.length full rest rfl hdvd hrest

/-! ## Continuous-mode segmentation state machine
(`SimpleSTTApp._continuous_loop`)

The loop wakes every `chunk_duration = 0.1` s, drains the captured audio
into one chunk, classifies it with `_check_voice_activity`, and updates
`silence_buffer` / `silence_duration` / `is_speaking` / `idle_duration`.
The model abstracts one loop iteration over a drained chunk as a step on
that state; the chunk enters as its sample count together with the boolean
result of the voice-activity check (the loop inspects the chunk's samples
only through that check).  `self.sample_rate = 16000` is fixed. -/

/-- Constant `sample_rate = 16000` (`SimpleSTTApp.__init__`). -/
def sample_rate : ℕ := 16000

/-- Constant `chunk_duration = 0.1` — the loop cadence in seconds. -/
def chunk_duration : ℚ := 1/10

/-- Constant `max_buffer_duration = 30.0` — force processing after 30 s of
continuous speech. -/
def max_buffer_duration : ℚ := 30

/-- The hard-coded `0.5` s voice floor of the `voice_duration < 0.5`
noise check. -/
def voice_floor : ℚ := 1/2

/-- A finalized utterance handed to `_process_continuous_chunk`:
the number of samples of `speech_audio` plus the value of
`silence_duration` at the moment of finalization. -/
structure SpeechSegment where
  samples : ℕ
  silence : ℚ
deriving DecidableEq, Repr

/-- Total duration of a dispatched segment in seconds:
`len(speech_audio) / self.sample_rate`. -/
def SpeechSegment.totalDur (seg : SpeechSegment) : ℚ :=
  (seg.samples : ℚ) / (sample_rate : ℚ)

/-- Voiced duration of a dispatched segment:
`total_duration - silence_duration` at finalization. -/
def SpeechSegment.voicedDur (seg : SpeechSegment) : ℚ :=
  seg.totalDur - seg.silence

/-- The loop-local state of `_continuous_loop`: `silence_buffer` (modelled
by its total sample count), `silence_duration`, `is_speaking`, and
`idle_duration`. -/
structure LoopState where
  silence_buffer : ℕ
  silence_duration : ℚ
  is_speaking : Bool
  idle_duration : ℚ
deriving DecidableEq, Repr

/-- The state at loop entry: empty buffer, zero counters, not speaking. -/
def initState : LoopState :=
  { silence_buffer := 0, silence_duration := 0, is_speaking := false,
    idle_duration := 0 }

/-- The two settings the loop reads (`pause_threshold`, `idle_timeout`);
the voice-activity settings are folded into the per-chunk boolean. -/
structure ContConfig where
  pause_threshold : ℚ
  idle_timeout : ℚ
deriving DecidableEq, Repr

/-- Result of one loop iteration: the updated state, the segments handed
to `_process_continuous_chunk` during the iteration, and whether the loop
emitted the session-stop signal (`self._ui_update(self.stop)` followed by
`break`). -/
structure StepResult where
  state : LoopState
  dispatched : List SpeechSegment
  stopped : Bool
deriving DecidableEq, Repr

/-- One iteration of `_continuous_loop` on a drained chunk of `chunkLen`
samples whose voice-activity check returned `is_voice`
(`src/desktop_app.py` lines 925–998). -/
def continuous_step (cfg : ContConfig) (st : LoopState) (chunkLen : ℕ)
    (is_voice : Bool) : StepResult :=
  if is_voice then
    -- voice: reset idle timer; enter Speaking if needed; extend buffer
    let st1 : LoopState :=
      if !st.is_speaking then
        { st with idle_duration := 0, is_speaking := true,
                  silence_buffer := 0, silence_duration := 0 }
      else { st with idle_duration := 0 }
    let st2 := { st1 with silence_buffer := st1.silence_buffer + chunkLen }
    let buffer_dur : ℚ := (st2.silence_buffer : ℚ) / (sample_rate : ℚ)
    -- force process after max_buffer_duration of continuous speech
    if max_buffer_duration ≤ buffer_dur then
      { state := { st2 with silence_buffer := 0, silence_duration := 0 },
        dispatched := [⟨st2.silence_buffer, st2.silence_duration⟩],
        stopped := false }
    else { state := st2, dispatched := [], stopped := false }
  else
    if !st.is_speaking then
      -- silence while Idle: accumulate idle time, maybe auto-stop
      let st1 := { st with idle_duration := st.idle_duration + chunk_duration }
      if 0 < cfg.idle_timeout ∧ cfg.idle_timeout ≤ st1.idle_duration then
        { state := st1, dispatched := [], stopped := true }
      else { state := st1, dispatched := [], stopped := false }
    else
      -- silence while Speaking: extend buffer, accumulate silence
      let st1 := { st with silence_buffer := st.silence_buffer + chunkLen,
                           silence_duration := st.silence_duration + chunk_duration }
      if cfg.pause_threshold ≤ st1.silence_duration then
        let total : ℚ := (st1.silence_buffer : ℚ) / (sample_rate : ℚ)
        let voiced : ℚ := total - st1.silence_duration
        let segs : List SpeechSegment :=
          if voiced < voice_floor then []
          else if 0 < st1.silence_buffer then [⟨st1.silence_buffer, st1.silence_duration⟩]
          else []
        { state := { silence_buffer := 0, silence_duration := 0,
                     is_speaking := false, idle_duration := 0 },
          dispatched := segs, stopped := false }
      else { state := st1, dispatched := [], stopped := false }

/-- Run the loop over a list of drained chunks (sample count, voice-check
result).  A session-stop signal breaks out of the loop: later chunks are
not processed. -/
def continuous_run (cfg : ContConfig) : LoopState → List (ℕ × Bool) → StepResult
  | st, [] => ⟨st, [], false⟩
  | st, (c, v) :: rest =>
    let r := continuous_step cfg st c v
    if r.stopped then ⟨r.state, r.dispatched, true⟩
    else
      let r2 := continuous_run cfg r.state rest
      ⟨r2.state, r.dispatched ++ r2.dispatched, r2.stopped⟩

/-- The post-loop flush (`src/desktop_app.py` lines 1000–1013): when the
loop exits while Speaking with a non-empty buffer, dispatch it through
the voice-floor check (and a total-duration floor of `0.3` s). -/
def stop_flush (st : LoopState) : List SpeechSegment :=
  if st.is_speaking ∧ 0 < st.silence_buffer then
    let total : ℚ := (st.silence_buffer : ℚ) / (sample_rate : ℚ)
    let voiced : ℚ := total - st.silence_duration
    if voiced < voice_floor then []
    else if 3/10 ≤ total then [⟨st.silence_buffer, st.silence_duration⟩]
    else []
  else []

/-- A whole continuous session from a fresh state: the loop over the given
chunks followed by the stop flush; returns every dispatched segment in
order and whether the session auto-stopped. -/
def continuous_session (cfg : ContConfig) (inputs : List (ℕ × Bool)) :
    List SpeechSegment × Bool :=
  let r := continuous_run cfg initState inputs
  (r.dispatched ++ stop_flush r.state, r.stopped)

/-! ### Run lemmas for the segmentation machine -/

theorem continuous_run_append (cfg : ContConfig) (st : LoopState)
    (xs ys : List (ℕ × Bool)) :
    continuous_run cfg st (xs ++ ys) =
      (let r := continuous_run cfg st xs
       if r.stopped then r
       else
         let r2 := continuous_run cfg r.state ys
         ⟨r2.state, r.dispatched ++ r2.dispatched, r2.stopped⟩) := by
  induction xs generalizing st with
  | nil => simp [continuous_run]
  | cons p rest ih =>
    obtain ⟨c, v⟩ := p
    simp only [List.cons_append, continuous_run]
    by_cases h : (continuous_step cfg st c v).stopped
    · simp [h]
    · by_cases h2 : (continuous_run cfg (continuous_step cfg st c v).state rest).stopped
      · simp [h, ih, h2]
      · simp [h, ih, h2]

/-- A voiced chunk received while `Idle`, not large enough to force-flush:
enter `Speaking` with a fresh buffer holding the chunk. -/
theorem step_voice_start (cfg : ContConfig) (st : LoopState) (c : ℕ)
    (hs : st.is_speaking = false) (hc : ((c : ℕ) : ℚ) / (sample_rate : ℚ) < 30) :
    continuous_step cfg st c true =
      ⟨{ silence_buffer := c, silence_duration := 0, is_speaking := true,
         idle_duration := 0 }, [], false⟩ := by
  have hc' : ¬ (max_buffer_duration ≤ ((0 + c : ℕ) : ℚ) / (sample_rate : ℚ)) := by
    rw [max_buffer_duration, Nat.zero_add]
    exact not_le.mpr hc
  simp only [continuous_step, hs, Bool.not_false, Bool.false_eq_true, if_false,
    if_true, eq_self_iff_true, ite_true, ite_false]
  rw [if_neg hc']
  simp

/-- A voiced chunk received while `Speaking`, not reaching the force-flush
bound: extend the buffer, reset the idle counter, keep everything else. -/
theorem step_voice_continue (cfg : ContConfig) (st : LoopState) (c : ℕ)
    (hs : st.is_speaking = true)
    (hc : ((st.silence_buffer + c : ℕ) : ℚ) / (sample_rate : ℚ) < 30) :
    continuous_step cfg st c true =
      ⟨{ st with silence_buffer := st.silence_buffer + c, idle_duration := 0 },
       [], false⟩ := by
  have hc' : ¬ (max_buffer_duration ≤ ((st.silence_buffer + c : ℕ) : ℚ) / (sample_rate : ℚ)) := by
    rw [max_buffer_duration]
    exact not_le.mpr hc
  simp only [continuous_step, hs, Bool.not_true, Bool.false_eq_true, if_false,
    if_true, eq_self_iff_true, ite_true, ite_false]
  rw [if_neg hc']

/-- A voiced chunk received while `Speaking` that pushes the buffer to at
least `max_buffer_duration`: force-flush the whole buffer as one segment,
clear buffer and silence counter, remain `Speaking`. -/
theorem step_force_flush (cfg : ContConfig) (st : LoopState) (c : ℕ)
    (hs : st.is_speaking = true)
    (hc : (30 : ℚ) ≤ ((st.silence_buffer + c : ℕ) : ℚ) / (sample_rate : ℚ)) :
    continuous_step cfg st c true =
      ⟨{ st with silence_buffer := 0, silence_duration := 0, idle_duration := 0 },
       [⟨st.silence_buffer + c, st.silence_duration⟩], false⟩ := by
  have hc' : max_buffer_duration ≤ ((st.silence_buffer + c : ℕ) : ℚ) / (sample_rate : ℚ) := by
    rw [max_buffer_duration]; exact hc
  simp only [continuous_step, hs, Bool.not_true, Bool.false_eq_true, if_false,
    if_true, eq_self_iff_true, ite_true, ite_false]
  rw [if_pos hc']

/-- A run of voiced chunks while already `Speaking` with a clear idle
counter, never reaching the force-flush bound: the buffer accumulates all
samples, nothing is dispatched. -/
theorem run_voiced (cfg : ContConfig) (n : ℕ) (c : ℕ) :
    ∀ st : LoopState, st.is_speaking = true → st.idle_duration = 0 →
    ((st.silence_buffer + n * c : ℕ) : ℚ) / (sample_rate : ℚ) < 30 →
    continuous_run cfg st (List.replicate n (c, true)) =
      ⟨{ st with silence_buffer := st.silence_buffer + n * c }, [], false⟩ := by
  induction n with
  | zero => intro st hs hi _; simp [continuous_run]
  | succ n ih =>
    intro st hs hi hbound
    have hacc : st.silence_buffer + c + n * c = st.silence_buffer + (n + 1) * c := by
      ring
    have hstep : continuous_step cfg st c true =
        ⟨{ st with silence_buffer := st.silence_buffer + c, idle_duration := 0 },
         [], false⟩ := by
      apply step_voice_continue cfg st c hs
      refine lt_of_le_of_lt ?_ hbound
      have hle : (st.silence_buffer + c : ℕ) ≤ (st.silence_buffer + (n + 1) * c : ℕ) := by
        have : c ≤ (n + 1) * c := Nat.le_mul_of_pos_left c (Nat.succ_pos n)
        omega
      have hcast : ((st.silence_buffer + c : ℕ) : ℚ) ≤
          ((st.silence_buffer + (n + 1) * c : ℕ) : ℚ) := by exact_mod_cast hle
      have hsr : (0 : ℚ) ≤ (sample_rate : ℚ) := by norm_num
      exact div_le_div_of_nonneg_right hcast hsr
    rw [List.replicate_succ]
    simp only [continuous_run, hstep, Bool.false_eq_true, if_false]
    have hside : (((st.silence_buffer + c) + n * c : ℕ) : ℚ) / (sample_rate : ℚ) < 30 := by
      rw [hacc]; exact hbound
    have hrun := ih ⟨st.silence_buffer + c, st.silence_duration, st.is_speaking, 0⟩
      hs rfl hside
    rw [hrun]
    simp only [StepResult.mk.injEq, LoopState.mk.injEq, List.nil_append,
      and_true, true_and]
    rw [hacc, hi]
    simp


/-- A silent chunk received while `Speaking`, with the silence counter
still below the pause threshold: append the silence to the buffer and
grow the counter. -/
theorem step_silence_speaking (cfg : ContConfig) (st : LoopState) (c : ℕ)
    (hs : st.is_speaking = true)
    (hp : st.silence_duration + chunk_duration < cfg.pause_threshold) :
    continuous_step cfg st c false =
      ⟨{ st with silence_buffer := st.silence_buffer + c,
                 silence_duration := st.silence_duration + chunk_duration },
       [], false⟩ := by
  simp only [continuous_step, hs, Bool.not_true, Bool.false_eq_true, if_false,
    if_true, eq_self_iff_true, ite_true, ite_false]
  rw [if_neg (not_le.mpr hp)]

/-- The pause-timeout finalize step, discard case: the silence counter
reaches the pause threshold but the voiced duration is below the voice
floor — the buffer is dropped as noise, everything is cleared, the
machine returns to `Idle`. -/
theorem step_finalize_skip (cfg : ContConfig) (st : LoopState) (c : ℕ)
    (hs : st.is_speaking = true)
    (hp : cfg.pause_threshold ≤ st.silence_duration + chunk_duration)
    (hv : ((st.silence_buffer + c : ℕ) : ℚ) / (sample_rate : ℚ)
        - (st.silence_duration + chunk_duration) < voice_floor) :
    continuous_step cfg st c false = ⟨initState, [], false⟩ := by
  simp only [continuous_step, hs, Bool.not_true, Bool.false_eq_true, if_false,
    if_true, eq_self_iff_true, ite_true, ite_false]
  rw [if_pos hp, if_pos hv]
  rfl

/-- The pause-timeout finalize step, dispatch case: the silence counter
reaches the pause threshold and the voiced duration passes the voice
floor — exactly the whole buffer (voiced audio plus trailing silence) is
dispatched as one segment, everything is cleared, the machine returns to
`Idle`. -/
theorem step_finalize_dispatch (cfg : ContConfig) (st : LoopState) (c : ℕ)
    (hs : st.is_speaking = true)
    (hp : cfg.pause_threshold ≤ st.silence_duration + chunk_duration)
    (hv : voice_floor ≤ ((st.silence_buffer + c : ℕ) : ℚ) / (sample_rate : ℚ)
        - (st.silence_duration + chunk_duration))
    (hb : 0 < st.silence_buffer + c) :
    continuous_step cfg st c false =
      ⟨initState, [⟨st.silence_buffer + c, st.silence_duration + chunk_duration⟩],
       false⟩ := by
  simp only [continuous_step, hs, Bool.not_true, Bool.false_eq_true, if_false,
    if_true, eq_self_iff_true, ite_true, ite_false]
  rw [if_pos hp, if_neg (not_lt.mpr hv), if_pos hb]
  rfl

/-- A silent chunk received while `Idle` that does not trigger the idle
timeout: only the idle counter grows by the cadence interval. -/
theorem step_idle (cfg : ContConfig) (st : LoopState) (c : ℕ)
    (hs : st.is_speaking = false)
    (hT : ¬ (0 < cfg.idle_timeout ∧ cfg.idle_timeout ≤ st.idle_duration + chunk_duration)) :
    continuous_step cfg st c false =
      ⟨{ st with idle_duration := st.idle_duration + chunk_duration }, [], false⟩ := by
  simp only [continuous_step, hs, Bool.not_false, Bool.false_eq_true, if_false,
    if_true, eq_self_iff_true, ite_true, ite_false]
  rw [if_neg hT]

/-- A silent chunk received while `Idle` whose idle counter reaches the
configured (positive) idle timeout: the session-stop signal is emitted. -/
theorem step_idle_stop (cfg : ContConfig) (st : LoopState) (c : ℕ)
    (hs : st.is_speaking = false) (h0 : 0 < cfg.idle_timeout)
    (hT : cfg.idle_timeout ≤ st.idle_duration + chunk_duration) :
    continuous_step cfg st c false =
      ⟨{ st with idle_duration := st.idle_duration + chunk_duration }, [], true⟩ := by
  simp only [continuous_step, hs, Bool.not_false, Bool.false_eq_true, if_false,
    if_true, eq_self_iff_true, ite_true, ite_false]
  rw [if_pos ⟨h0, hT⟩]

/-- A run of silent chunks while `Speaking` that never reaches the pause
threshold: the buffer and the silence counter accumulate, nothing is
dispatched. -/
theorem run_silent_speaking (cfg : ContConfig) (n c : ℕ) :
    ∀ st : LoopState, st.is_speaking = true →
    st.silence_duration + (n : ℚ) * chunk_duration < cfg.pause_threshold →
    continuous_run cfg st (List.replicate n (c, false)) =
      ⟨{ st with silence_buffer := st.silence_buffer + n * c,
                 silence_duration := st.silence_duration + (n : ℚ) * chunk_duration },
       [], false⟩ := by
  induction n with
  | zero => intro st _ _; simp [continuous_run]
  | succ n ih =>
    intro st hs hp
    have hcd : (0 : ℚ) < chunk_duration := by norm_num [chunk_duration]
    have hmono : st.silence_duration + chunk_duration
        ≤ st.silence_duration + ((n + 1 : ℕ) : ℚ) * chunk_duration := by
      have h1 : (1 : ℚ) ≤ ((n + 1 : ℕ) : ℚ) := by
        exact_mod_cast Nat.one_le_iff_ne_zero.mpr (Nat.succ_ne_zero n)
      nlinarith
    have hstep := step_silence_speaking cfg st c hs (lt_of_le_of_lt hmono hp)
    rw [List.replicate_succ]
    simp only [continuous_run, hstep, Bool.false_eq_true, if_false]
    have hside : (⟨st.silence_buffer + c, st.silence_duration + chunk_duration,
        st.is_speaking, st.idle_duration⟩ : LoopState).silence_duration
        + (n : ℚ) * chunk_duration < cfg.pause_threshold := by
      simp only []
      push_cast at hp ⊢
      linarith
    have hrun := ih ⟨st.silence_buffer + c, st.silence_duration + chunk_duration,
      st.is_speaking, st.idle_duration⟩ hs hside
    rw [hrun]
    simp only [StepResult.mk.injEq, LoopState.mk.injEq, List.nil_append,
      eq_self_iff_true, and_true, true_and]
    constructor
    · ring
    · push_cast; ring

/-- A run of silent chunks while `Idle` that never reaches the idle
timeout: only the idle counter accumulates. -/
theorem run_idle (cfg : ContConfig) (n c : ℕ) :
    ∀ st : LoopState, st.is_speaking = false →
    (cfg.idle_timeout ≤ 0 ∨
      st.idle_duration + (n : ℚ) * chunk_duration < cfg.idle_timeout) →
    continuous_run cfg st (List.replicate n (c, false)) =
      ⟨{ st with idle_duration := st.idle_duration + (n : ℚ) * chunk_duration },
       [], false⟩ := by
  induction n with
  | zero => intro st _ _; simp [continuous_run]
  | succ n ih =>
    intro st hs hT
    have hstep := step_idle cfg st c hs (by
      rcases hT with hT | hT
      · rintro ⟨h0, -⟩; exact absurd hT (not_le.mpr h0)
      · rintro ⟨h0, hle⟩
        have h1 : (1 : ℚ) ≤ ((n + 1 : ℕ) : ℚ) := by
          exact_mod_cast Nat.one_le_iff_ne_zero.mpr (Nat.succ_ne_zero n)
        have hcd : (0 : ℚ) < chunk_duration := by norm_num [chunk_duration]
        nlinarith)
    rw [List.replicate_succ]
    simp only [continuous_run, hstep, Bool.false_eq_true, if_false]
    have hside : cfg.idle_timeout ≤ 0 ∨
        (⟨st.silence_buffer, st.silence_duration, st.is_speaking,
          st.idle_duration + chunk_duration⟩ : LoopState).idle_duration
          + (n : ℚ) * chunk_duration < cfg.idle_timeout := by
      rcases hT with hT | hT
      · exact Or.inl hT
      · refine Or.inr ?_
        simp only []
        push_cast at hT ⊢
        linarith
    have hrun := ih ⟨st.silence_buffer, st.silence_duration, st.is_speaking,
      st.idle_duration + chunk_duration⟩ hs hside
    rw [hrun]
    simp only [StepResult.mk.injEq, LoopState.mk.injEq, List.nil_append,
      eq_self_iff_true, and_true, true_and]
    push_cast; ring

/-! ### The voice-floor invariant -/

/-- Invariant of the segmentation loop: while `Speaking`, the silence
counter is strictly below the pause threshold (a chunk pushing it to the
threshold finalizes at once and leaves `Speaking`), unless it was just
cleared. -/
def SpeakingInv (cfg : ContConfig) (st : LoopState) : Prop :=
  st.is_speaking = true →
    st.silence_duration < cfg.pause_threshold ∨ st.silence_duration = 0

theorem initState_inv (cfg : ContConfig) : SpeakingInv cfg initState := by
  intro _
  exact Or.inr rfl


/-- A voiced chunk received while `Idle` that alone reaches the force-flush
bound: enter `Speaking`, dispatch the chunk at once, clear the buffer. -/
theorem step_voice_start_flush (cfg : ContConfig) (st : LoopState) (c : ℕ)
    (hs : st.is_speaking = false)
    (hc : (30 : ℚ) ≤ ((c : ℕ) : ℚ) / (sample_rate : ℚ)) :
    continuous_step cfg st c true = ⟨⟨0, 0, true, 0⟩, [⟨c, 0⟩], false⟩ := by
  have hc' : max_buffer_duration ≤ ((0 + c : ℕ) : ℚ) / (sample_rate : ℚ) := by
    rw [max_buffer_duration, Nat.zero_add]; exact hc
  simp only [continuous_step, hs, Bool.not_false, Bool.false_eq_true, if_false,
    if_true, eq_self_iff_true, ite_true, ite_false]
  rw [if_pos hc']
  simp

/-- The pause-timeout finalize step on an empty buffer dispatches
nothing. -/
theorem step_finalize_empty (cfg : ContConfig) (st : LoopState) (c : ℕ)
    (hs : st.is_speaking = true)
    (hp : cfg.pause_threshold ≤ st.silence_duration + chunk_duration)
    (hb : st.silence_buffer + c = 0) :
    continuous_step cfg st c false = ⟨initState, [], false⟩ := by
  simp only [continuous_step, hs, Bool.not_true, Bool.false_eq_true, if_false,
    if_true, eq_self_iff_true, ite_true, ite_false]
  rw [if_pos hp, hb]
  simp [initState]

theorem step_preserves_inv (cfg : ContConfig) (st : LoopState) (c : ℕ) (v : Bool)
    (h : SpeakingInv cfg st) :
    SpeakingInv cfg (continuous_step cfg st c v).state := by
  cases v with
  | true =>
    by_cases hsp : st.is_speaking = true
    · by_cases hflush : (30 : ℚ) ≤ ((st.silence_buffer + c : ℕ) : ℚ) / (sample_rate : ℚ)
      · rw [step_force_flush cfg st c hsp hflush]
        intro _; exact Or.inr rfl
      · rw [step_voice_continue cfg st c hsp (not_le.mp hflush)]
        intro _; exact h hsp
    · have hsp' : st.is_speaking = false := by
        cases hb : st.is_speaking
        · rfl
        · exact absurd hb hsp
      by_cases hflush : (30 : ℚ) ≤ ((c : ℕ) : ℚ) / (sample_rate : ℚ)
      · rw [step_voice_start_flush cfg st c hsp' hflush]
        intro _; exact Or.inr rfl
      · rw [step_voice_start cfg st c hsp' (not_le.mp hflush)]
        intro _; exact Or.inr rfl
  | false =>
    by_cases hsp : st.is_speaking = true
    · by_cases hp : cfg.pause_threshold ≤ st.silence_duration + chunk_duration
      · by_cases hvd : ((st.silence_buffer + c : ℕ) : ℚ) / (sample_rate : ℚ)
            - (st.silence_duration + chunk_duration) < voice_floor
        · rw [step_finalize_skip cfg st c hsp hp hvd]
          intro _; exact Or.inr rfl
        · by_cases hb : 0 < st.silence_buffer + c
          · rw [step_finalize_dispatch cfg st c hsp hp (not_lt.mp hvd) hb]
            intro _; exact Or.inr rfl
          · rw [step_finalize_empty cfg st c hsp hp (by omega)]
            intro _; exact Or.inr rfl
      · rw [step_silence_speaking cfg st c hsp (not_le.mp hp)]
        intro hsp2
        exact Or.inl (not_le.mp hp)
    · have hsp' : st.is_speaking = false := by
        cases hb : st.is_speaking
        · rfl
        · exact absurd hb hsp
      by_cases hT : 0 < cfg.idle_timeout ∧ cfg.idle_timeout ≤ st.idle_duration + chunk_duration
      · rw [step_idle_stop cfg st c hsp' hT.1 hT.2]
        intro hsp2
        simp only [] at hsp2
        rw [hsp'] at hsp2
        exact absurd hsp2 (by simp)
      · rw [step_idle cfg st c hsp' hT]
        intro hsp2
        simp only [] at hsp2
        rw [hsp'] at hsp2
        exact absurd hsp2 (by simp)

theorem step_dispatch_floor (cfg : ContConfig) (st : LoopState) (c : ℕ) (v : Bool)
    (hpause : cfg.pause_threshold ≤ 59/2) (h : SpeakingInv cfg st) :
    ∀ seg ∈ (continuous_step cfg st c v).dispatched,
      voice_floor ≤ seg.voicedDur := by
  intro seg hm
  cases v with
  | true =>
    by_cases hsp : st.is_speaking = true
    · by_cases hflush : (30 : ℚ) ≤ ((st.silence_buffer + c : ℕ) : ℚ) / (sample_rate : ℚ)
      · rw [step_force_flush cfg st c hsp hflush] at hm
        simp only [List.mem_singleton] at hm
        subst hm
        simp only [SpeechSegment.voicedDur, SpeechSegment.totalDur, voice_floor]
        rcases h hsp with hlt | hz
        · have : st.silence_duration < 59/2 := lt_of_lt_of_le hlt hpause
          linarith
        · rw [hz]
          linarith
      · rw [step_voice_continue cfg st c hsp (not_le.mp hflush)] at hm
        simp at hm
    · have hsp' : st.is_speaking = false := by
        cases hb : st.is_speaking
        · rfl
        · exact absurd hb hsp
      by_cases hflush : (30 : ℚ) ≤ ((c : ℕ) : ℚ) / (sample_rate : ℚ)
      · rw [step_voice_start_flush cfg st c hsp' hflush] at hm
        simp only [List.mem_singleton] at hm
        subst hm
        simp only [SpeechSegment.voicedDur, SpeechSegment.totalDur, voice_floor]
        linarith
      · rw [step_voice_start cfg st c hsp' (not_le.mp hflush)] at hm
        simp at hm
  | false =>
    by_cases hsp : st.is_speaking = true
    · by_cases hp : cfg.pause_threshold ≤ st.silence_duration + chunk_duration
      · by_cases hvd : ((st.silence_buffer + c : ℕ) : ℚ) / (sample_rate : ℚ)
            - (st.silence_duration + chunk_duration) < voice_floor
        · rw [step_finalize_skip cfg st c hsp hp hvd] at hm
          simp at hm
        · by_cases hb : 0 < st.silence_buffer + c
          · rw [step_finalize_dispatch cfg st c hsp hp (not_lt.mp hvd) hb] at hm
            simp only [List.mem_singleton] at hm
            subst hm
            simpa [SpeechSegment.voicedDur, SpeechSegment.totalDur] using not_lt.mp hvd
          · rw [step_finalize_empty cfg st c hsp hp (by omega)] at hm
            simp at hm
      · rw [step_silence_speaking cfg st c hsp (not_le.mp hp)] at hm
        simp at hm
    · have hsp' : st.is_speaking = false := by
        cases hb : st.is_speaking
        · rfl
        · exact absurd hb hsp
      by_cases hT : 0 < cfg.idle_timeout ∧ cfg.idle_timeout ≤ st.idle_duration + chunk_duration
      · rw [step_idle_stop cfg st c hsp' hT.1 hT.2] at hm
        simp at hm
      · rw [step_idle cfg st c hsp' hT] at hm
        simp at hm

theorem run_floor (cfg : ContConfig) (hpause : cfg.pause_threshold ≤ 59/2) :
    ∀ (inputs : List (ℕ × Bool)) (st : LoopState), SpeakingInv cfg st →
    (∀ seg ∈ (continuous_run cfg st inputs).dispatched, voice_floor ≤ seg.voicedDur)
    ∧ SpeakingInv cfg (continuous_run cfg st inputs).state := by
  intro inputs
  induction inputs with
  | nil =>
    intro st h
    constructor
    · intro seg hm
      simp [continuous_run] at hm
    · simpa [continuous_run] using h
  | cons p rest ih =>
    obtain ⟨c, v⟩ := p
    intro st h
    have hinv := step_preserves_inv cfg st c v h
    have hseg := step_dispatch_floor cfg st c v hpause h
    obtain ⟨ihseg, ihinv⟩ := ih (continuous_step cfg st c v).state hinv
    simp only [continuous_run]
    by_cases hstop : (continuous_step cfg st c v).stopped = true
    · rw [if_pos hstop]
      exact ⟨hseg, hinv⟩
    · rw [if_neg hstop]
      constructor
      · intro seg hm
        simp only [List.mem_append] at hm
        rcases hm with hm | hm
        · exact hseg seg hm
        · exact ihseg seg hm
      · exact ihinv

theorem stop_flush_floor (st : LoopState) :
    ∀ seg ∈ stop_flush st, voice_floor ≤ seg.voicedDur := by
  intro seg hm
  unfold stop_flush at hm
  by_cases h1 : st.is_speaking = true ∧ 0 < st.silence_buffer
  · rw [if_pos h1] at hm
    by_cases h2 : ((st.silence_buffer : ℕ) : ℚ) / (sample_rate : ℚ)
        - st.silence_duration < voice_floor
    · rw [if_pos h2] at hm
      simp at hm
    · rw [if_neg h2] at hm
      by_cases h3 : (3/10 : ℚ) ≤ ((st.silence_buffer : ℕ) : ℚ) / (sample_rate : ℚ)
      · rw [if_pos h3] at hm
        simp only [List.mem_singleton] at hm
        subst hm
        simpa [SpeechSegment.voicedDur, SpeechSegment.totalDur] using not_lt.mp h2
      · rw [if_neg h3] at hm
        simp at hm
  · rw [if_neg h1] at hm
    simp at hm

/-- A standard utterance under the default configuration
(`pause_threshold = 1.5`, `idle_timeout = 10`): `v + 1` voiced 0.1 s
chunks of 1600 samples followed by silent chunks.  The segment finalizes
on the 15th silent chunk, when the silence counter first reaches 1.5 s,
carrying the whole buffer. -/
theorem run_utterance (v : ℕ) (hlong : 4 ≤ v)
    (hbound : (((v + 1) * 1600 : ℕ) : ℚ) / (sample_rate : ℚ) < 30) :
    continuous_run ⟨3/2, 10⟩ initState
      (List.replicate (v + 1) (1600, true) ++ List.replicate 15 (1600, false)) =
      ⟨initState, [⟨(v + 1) * 1600 + 24000, 3/2⟩], false⟩ := by
  rw [List.replicate_succ, List.cons_append]
  have h1 : continuous_step ⟨3/2, 10⟩ initState 1600 true =
      ⟨⟨1600, 0, true, 0⟩, [], false⟩ := by
    have := step_voice_start ⟨3/2, 10⟩ initState 1600 rfl
      (by norm_num [sample_rate])
    simpa [initState] using this
  simp only [continuous_run, h1, Bool.false_eq_true, if_false]
  rw [continuous_run_append]
  have h2 : continuous_run ⟨3/2, 10⟩ ⟨1600, 0, true, 0⟩
      (List.replicate v (1600, true)) =
      ⟨⟨1600 + v * 1600, 0, true, 0⟩, [], false⟩ := by
    have heq : (1600 + v * 1600 : ℕ) = ((v + 1) * 1600 : ℕ) := by ring
    have := run_voiced ⟨3/2, 10⟩ v 1600 ⟨1600, 0, true, 0⟩ rfl rfl
      (by rw [heq]; exact hbound)
    simpa using this
  rw [h2]
  simp only [Bool.false_eq_true, if_false]
  have h15 : List.replicate 15 ((1600 : ℕ), false) =
      List.replicate 14 ((1600 : ℕ), false) ++ [(1600, false)] := by
    rw [← List.replicate_succ']
  rw [h15, continuous_run_append]
  have h3 : continuous_run ⟨3/2, 10⟩ ⟨1600 + v * 1600, 0, true, 0⟩
      (List.replicate 14 (1600, false)) =
      ⟨⟨1600 + v * 1600 + 14 * 1600, 7/5, true, 0⟩, [], false⟩ := by
    have := run_silent_speaking ⟨3/2, 10⟩ 14 1600 ⟨1600 + v * 1600, 0, true, 0⟩
      rfl (by norm_num [chunk_duration])
    norm_num [chunk_duration] at this
    simpa using this
  rw [h3]
  simp only [Bool.false_eq_true, if_false]
  have h4 : continuous_step ⟨3/2, 10⟩ ⟨1600 + v * 1600 + 14 * 1600, 7/5, true, 0⟩
      1600 false =
      ⟨initState, [⟨1600 + v * 1600 + 14 * 1600 + 1600, 7/5 + chunk_duration⟩],
       false⟩ := by
    apply step_finalize_dispatch ⟨3/2, 10⟩ _ 1600 rfl
    · norm_num [chunk_duration]
    · simp only [voice_floor, sample_rate, chunk_duration]
      have hv4 : (4 : ℚ) ≤ (v : ℚ) := by exact_mod_cast hlong
      push_cast
      rw [div_sub' _ _ _ (by norm_num), le_div_iff (by norm_num : (0:ℚ) < 16000)]
      ring_nf
      ring_nf at hv4
      nlinarith
    · omega
  simp only [continuous_run, h4, Bool.false_eq_true, if_false]
  simp only [List.nil_append, List.append_nil, StepResult.mk.injEq]
  refine ⟨trivial, ?_, trivial⟩
  simp only [List.cons.injEq, SpeechSegment.mk.injEq, and_true, eq_self_iff_true]
  constructor
  · ring
  · norm_num [chunk_duration]

/-- Concrete session: 0.5 s of voiced audio then 1.5 s of silence under the
default configuration — dispatches one segment of 32000 samples whose
voiced duration is exactly the 0.5 s floor. -/
theorem session_5_15 :
    continuous_session ⟨3/2, 10⟩
      (List.replicate 5 (1600, true) ++ List.replicate 15 (1600, false))
      = ([⟨32000, 3/2⟩], false) := by
  have hrun := run_utterance 4 (by norm_num) (by norm_num [sample_rate])
  norm_num at hrun
  unfold continuous_session
  rw [hrun]
  simp [stop_flush, initState]

/-- Concrete session: 2.0 s of voiced audio then 1.6 s of silence under the
default configuration — dispatches one segment of 56000 samples (3.5 s
total, 2.0 s voiced), finalized on the 15th silent chunk. -/
theorem session_20_16 :
    continuous_session ⟨3/2, 10⟩
      (List.replicate 20 (1600, true) ++ List.replicate 16 (1600, false))
      = ([⟨56000, 3/2⟩], false) := by
  have hrun := run_utterance 19 (by norm_num) (by norm_num [sample_rate])
  norm_num at hrun
  have h16 : List.replicate 16 ((1600 : ℕ), false) =
      List.replicate 15 ((1600 : ℕ), false) ++ [(1600, false)] := by
    rw [← List.replicate_succ']
  unfold continuous_session
  rw [h16, ← List.append_assoc, continuous_run_append, hrun]
  simp only [Bool.false_eq_true, if_false]
  have hstep : continuous_step ⟨3/2, 10⟩ initState 1600 false =
      ⟨⟨0, 0, false, 1/10⟩, [], false⟩ := by
    have := step_idle ⟨3/2, 10⟩ initState 1600 rfl
      (by norm_num [chunk_duration, initState])
    simpa [initState, chunk_duration] using this
  simp only [continuous_run, hstep, Bool.false_eq_true, if_false]
  simp [stop_flush]

/-- C2 (amended): for every input stream and every `SpeechSegment` the
state machine dispatches — by pause timeout, force-flush, or stop-flush —
the segment's voiced duration is at least (inclusively) the 0.5 s voice
floor, provided the configured pause threshold is at most 29.5 s (which
holds for the settings-validated 0.5–5 s range); a buffer failing the
voice-floor check is discarded and never dispatched. -/
theorem spec_C2_voice_floor (cfg : ContConfig)
    (hpause : cfg.pause_threshold ≤ 59/2) (inputs : List (ℕ × Bool)) :
    ∀ seg ∈ (continuous_session cfg inputs).1, voice_floor ≤ seg.voicedDur := by
  intro seg hm
  unfold continuous_session at hm
  simp only [List.mem_append] at hm
  rcases hm with hm | hm
  · exact (run_floor cfg hpause inputs initState (initState_inv cfg)).1 seg hm
  · exact stop_flush_floor _ seg hm

/-- Witness for C2: the default configuration satisfies the pause-threshold
bound, and the conclusion holds on a concrete stream. -/
theorem spec_C2_voice_floor_witness :
    ((3 : ℚ)/2 ≤ 59/2) ∧
      ∀ seg ∈ (continuous_session ⟨3/2, 10⟩ [(1600, true)]).1,
        voice_floor ≤ seg.voicedDur :=
  ⟨by norm_num, spec_C2_voice_floor ⟨3/2, 10⟩ (by norm_num) [(1600, true)]⟩

/-- Counterexample to C2 as stated: a segment whose voiced duration equals
the 0.5 s floor exactly is dispatched (the code discards only when
`voice_duration < 0.5`), so the voiced duration does not strictly exceed
the floor. -/
theorem spec_C2_counterexample :
    (continuous_session ⟨3/2, 10⟩
        (List.replicate 5 (1600, true) ++ List.replicate 15 (1600, false))).1
      = [⟨32000, 3/2⟩]
    ∧ ¬ (voice_floor < (⟨32000, 3/2⟩ : SpeechSegment).voicedDur) := by
  constructor
  · rw [session_5_15]
  · norm_num [voice_floor, SpeechSegment.voicedDur, SpeechSegment.totalDur,
      sample_rate]

/-- C1 (amended): while in `Speaking`, when the silence-duration counter
reaches the pause threshold the machine computes
`voiced_duration = total_duration - silence_duration`; if it is below the
0.5 s voice floor the buffer is discarded, otherwise exactly one
`SpeechSegment` containing the whole buffer (voiced audio plus trailing
silence) is dispatched; either way buffer and counters are cleared and the
machine returns to `Idle`.  For 2.0 s of voiced audio followed by silence
with `pause_threshold = 1.5`, exactly one segment of total duration 3.5 s
(2.0 s voice plus the 1.5 s of trailing silence present when the counter
first reaches the threshold) and voiced duration 2.0 s is dispatched. -/
theorem spec_C1_pause_segmentation :
    (∀ (cfg : ContConfig) (st : LoopState) (c : ℕ),
      st.is_speaking = true →
      cfg.pause_threshold ≤ st.silence_duration + chunk_duration →
      ((((st.silence_buffer + c : ℕ) : ℚ) / (sample_rate : ℚ)
          - (st.silence_duration + chunk_duration) < voice_floor →
        continuous_step cfg st c false = ⟨initState, [], false⟩)
      ∧ (voice_floor ≤ ((st.silence_buffer + c : ℕ) : ℚ) / (sample_rate : ℚ)
          - (st.silence_duration + chunk_duration) → 0 < st.silence_buffer + c →
        continuous_step cfg st c false =
          ⟨initState,
           [⟨st.silence_buffer + c, st.silence_duration + chunk_duration⟩],
           false⟩)))
    ∧ continuous_session ⟨3/2, 10⟩
        (List.replicate 20 (1600, true) ++ List.replicate 16 (1600, false))
        = ([⟨56000, 3/2⟩], false)
    ∧ (⟨56000, 3/2⟩ : SpeechSegment).totalDur = 7/2
    ∧ (⟨56000, 3/2⟩ : SpeechSegment).voicedDur = 2 := by
  refine ⟨?_, session_20_16, ?_, ?_⟩
  · intro cfg st c hs hp
    exact ⟨fun hv => step_finalize_skip cfg st c hs hp hv,
      fun hv hb => step_finalize_dispatch cfg st c hs hp hv hb⟩
  · norm_num [SpeechSegment.totalDur, sample_rate]
  · norm_num [SpeechSegment.voicedDur, SpeechSegment.totalDur, sample_rate]

/-- Witness for C1: the finalize step applied at a concrete `Speaking`
state (2.0 s of audio buffered, 1.4 s of silence counted) on the silent
chunk that makes the counter reach the 1.5 s threshold. -/
theorem spec_C1_witness :
    continuous_step ⟨3/2, 10⟩ ⟨30400, 7/5, true, 0⟩ 1600 false =
      ⟨initState, [⟨30400 + 1600, 7/5 + chunk_duration⟩], false⟩ :=
  (spec_C1_pause_segmentation.1 ⟨3/2, 10⟩ ⟨30400, 7/5, true, 0⟩ 1600 rfl
      (by norm_num [chunk_duration])).2
    (by norm_num [voice_floor, sample_rate, chunk_duration]) (by norm_num)

/-- Counterexample to C1 as stated: in the 2.0 s-voice scenario the unique
dispatched segment's total duration is exactly 3.5 s, which is more than
0.05 s away from the claimed ≈3.6 s. -/
theorem spec_C1_counterexample :
    (continuous_session ⟨3/2, 10⟩
        (List.replicate 20 (1600, true) ++ List.replicate 16 (1600, false))).1
      = [⟨56000, 3/2⟩]
    ∧ (⟨56000, 3/2⟩ : SpeechSegment).totalDur = 7/2
    ∧ (⟨56000, 3/2⟩ : SpeechSegment).totalDur + 1/20 < 18/5 := by
  refine ⟨?_, ?_, ?_⟩
  · rw [session_20_16]
  · norm_num [SpeechSegment.totalDur, sample_rate]
  · norm_num [SpeechSegment.totalDur, sample_rate]

/-- Concrete run: 31 s of continuous voiced audio (310 chunks of 0.1 s).
The buffer reaches 30 s at chunk 300, where exactly one 480000-sample
segment is force-flushed; the remaining 1 s accumulates with the machine
still `Speaking`. -/
theorem run_310 :
    continuous_run ⟨3/2, 10⟩ initState (List.replicate 310 ((1600 : ℕ), true)) =
      ⟨⟨16000, 0, true, 0⟩, [⟨480000, 0⟩], false⟩ := by
  have hsplit : List.replicate 310 ((1600 : ℕ), true)
      = List.replicate 1 ((1600 : ℕ), true)
        ++ (List.replicate 298 ((1600 : ℕ), true)
        ++ (List.replicate 1 ((1600 : ℕ), true)
        ++ List.replicate 10 ((1600 : ℕ), true))) := by
    rw [← List.replicate_add, ← List.replicate_add, ← List.replicate_add]
  rw [hsplit]
  have h1 : continuous_run ⟨3/2, 10⟩ initState
      (List.replicate 1 ((1600 : ℕ), true)) = ⟨⟨1600, 0, true, 0⟩, [], false⟩ := by
    have hstep : continuous_step ⟨3/2, 10⟩ initState 1600 true =
        ⟨⟨1600, 0, true, 0⟩, [], false⟩ := by
      have := step_voice_start ⟨3/2, 10⟩ initState 1600 rfl
        (by norm_num [sample_rate])
      simpa [initState] using this
    simp [continuous_run, hstep]
  rw [continuous_run_append, h1]
  simp only [Bool.false_eq_true, if_false]
  have h2 : continuous_run ⟨3/2, 10⟩ ⟨1600, 0, true, 0⟩
      (List.replicate 298 ((1600 : ℕ), true)) =
      ⟨⟨478400, 0, true, 0⟩, [], false⟩ := by
    have := run_voiced ⟨3/2, 10⟩ 298 1600 ⟨1600, 0, true, 0⟩ rfl rfl
      (by norm_num [sample_rate])
    norm_num at this
    exact this
  rw [continuous_run_append, h2]
  simp only [Bool.false_eq_true, if_false]
  have h3 : continuous_run ⟨3/2, 10⟩ ⟨478400, 0, true, 0⟩
      (List.replicate 1 ((1600 : ℕ), true)) =
      ⟨⟨0, 0, true, 0⟩, [⟨480000, 0⟩], false⟩ := by
    have hstep := step_force_flush ⟨3/2, 10⟩ ⟨478400, 0, true, 0⟩ 1600 rfl
      (by norm_num [sample_rate])
    norm_num at hstep
    simp [continuous_run, hstep]
  rw [continuous_run_append, h3]
  simp only [Bool.false_eq_true, if_false]
  have h4 : continuous_run ⟨3/2, 10⟩ ⟨0, 0, true, 0⟩
      (List.replicate 10 ((1600 : ℕ), true)) =
      ⟨⟨16000, 0, true, 0⟩, [], false⟩ := by
    have := run_voiced ⟨3/2, 10⟩ 10 1600 ⟨0, 0, true, 0⟩ rfl rfl
      (by norm_num [sample_rate])
    norm_num at this
    exact this
  rw [h4]
  rfl

/-- C3: while `Speaking` and still voiced, a chunk pushing the accumulated
buffer duration to the 30 s maximum makes the machine finalize and
dispatch the whole buffer immediately and reset buffer and silence
counter while remaining `Speaking`; on 31 s of continuous voiced audio
exactly one 30 s segment is dispatched mid-stream and the remaining 1 s
keeps accumulating. -/
theorem spec_C3_force_flush :
    (∀ (cfg : ContConfig) (st : LoopState) (c : ℕ),
      st.is_speaking = true →
      (30 : ℚ) ≤ ((st.silence_buffer + c : ℕ) : ℚ) / (sample_rate : ℚ) →
      continuous_step cfg st c true =
        ⟨{ st with silence_buffer := 0, silence_duration := 0, idle_duration := 0 },
         [⟨st.silence_buffer + c, st.silence_duration⟩], false⟩)
    ∧ continuous_run ⟨3/2, 10⟩ initState (List.replicate 310 ((1600 : ℕ), true))
        = ⟨⟨16000, 0, true, 0⟩, [⟨480000, 0⟩], false⟩
    ∧ (⟨480000, 0⟩ : SpeechSegment).totalDur = 30
    ∧ ((16000 : ℕ) : ℚ) / (sample_rate : ℚ) = 1 := by
  refine ⟨step_force_flush, run_310, ?_, ?_⟩
  · norm_num [SpeechSegment.totalDur, sample_rate]
  · norm_num [sample_rate]

/-- Witness for C3: the force-flush step applied at the concrete state
holding 29.9 s of audio when a further 0.1 s voiced chunk arrives. -/
theorem spec_C3_witness :
    continuous_step ⟨3/2, 10⟩ ⟨478400, 0, true, 0⟩ 1600 true =
      ⟨⟨0, 0, true, 0⟩, [⟨478400 + 1600, 0⟩], false⟩ :=
  spec_C3_force_flush.1 ⟨3/2, 10⟩ ⟨478400, 0, true, 0⟩ 1600 rfl
    (by norm_num [sample_rate])

/-- C4: with `idle_timeout = T > 0` and continuous silence from a fresh
state, the idle counter grows by the 0.1 s cadence interval on each
silent chunk, and the machine emits the session-stop signal and halts at
the first chunk at which the counter reaches or exceeds `T` (the
`⌈10·T⌉`-th); runs shorter than that emit nothing; a voiced chunk resets
the idle counter to zero. -/
theorem spec_C4_idle_timeout (cfg : ContConfig) (hT : 0 < cfg.idle_timeout)
    (n : ℕ) (hn : ⌈10 * cfg.idle_timeout⌉₊ ≤ n) (c : ℕ) :
    (continuous_run cfg initState (List.replicate n (c, false))
      = ⟨{ initState with
            idle_duration := (⌈10 * cfg.idle_timeout⌉₊ : ℚ) * chunk_duration },
         [], true⟩)
    ∧ (∀ m < ⌈10 * cfg.idle_timeout⌉₊,
        continuous_run cfg initState (List.replicate m (c, false))
          = ⟨{ initState with idle_duration := (m : ℚ) * chunk_duration },
             [], false⟩)
    ∧ (∀ (st : LoopState) (ch : ℕ),
        (continuous_step cfg st ch true).state.idle_duration = 0) := by
  have hT10 : (0 : ℚ) < 10 * cfg.idle_timeout := by linarith
  have hk1 : 1 ≤ ⌈10 * cfg.idle_timeout⌉₊ := Nat.one_le_iff_ne_zero.mpr
    (by
      intro h0
      have := Nat.ceil_pos.mpr hT10
      omega)
  have hshort : ∀ m < ⌈10 * cfg.idle_timeout⌉₊,
      continuous_run cfg initState (List.replicate m (c, false))
        = ⟨{ initState with idle_duration := (m : ℚ) * chunk_duration },
           [], false⟩ := by
    intro m hm
    have hmq : (m : ℚ) < 10 * cfg.idle_timeout := Nat.lt_ceil.mp hm
    have := run_idle cfg m c initState rfl
      (Or.inr (by
        simp only [initState, chunk_duration]
        linarith))
    simpa [initState] using this
  refine ⟨?_, hshort, ?_⟩
  · set k := ⌈10 * cfg.idle_timeout⌉₊ with hk
    have hsplit : List.replicate n ((c : ℕ), false)
        = List.replicate (k - 1) ((c : ℕ), false)
          ++ (((c : ℕ), false) :: List.replicate (n - k) ((c : ℕ), false)) := by
      rw [← List.replicate_succ, ← List.replicate_add]
      congr 1
      omega
    rw [hsplit, continuous_run_append,
      hshort (k - 1) (by omega)]
    simp only [Bool.false_eq_true, if_false]
    have hkcast : ((k - 1 : ℕ) : ℚ) = (k : ℚ) - 1 := by
      push_cast [hk1]
      ring
    have hstop : continuous_step cfg
        { initState with idle_duration := ((k - 1 : ℕ) : ℚ) * chunk_duration }
        c false =
        ⟨{ initState with
            idle_duration := ((k - 1 : ℕ) : ℚ) * chunk_duration + chunk_duration },
         [], true⟩ := by
      apply step_idle_stop cfg _ c rfl hT
      simp only [initState, chunk_duration, hkcast]
      have hkq : 10 * cfg.idle_timeout ≤ (k : ℚ) := Nat.le_ceil _
      linarith
    simp only [continuous_run, hstop, if_true]
    have : ((k - 1 : ℕ) : ℚ) * chunk_duration + chunk_duration
        = (k : ℚ) * chunk_duration := by
      rw [hkcast, chunk_duration]
      ring
    rw [this]
    simp
  · intro st ch
    simp only [continuous_step, eq_self_iff_true, if_true, ite_true]
    split_ifs <;> rfl

/-- Witness for C4: with the default `idle_timeout = 10` s, a run of 100
silent chunks stops exactly at the 100th chunk with the idle counter at
10 s. -/
theorem spec_C4_witness :
    (0 : ℚ) < 10 ∧ (⌈10 * (10 : ℚ)⌉₊ ≤ 100) ∧
    continuous_run ⟨3/2, 10⟩ initState (List.replicate 100 (1600, false))
      = ⟨{ initState with
            idle_duration := (⌈10 * (10 : ℚ)⌉₊ : ℚ) * chunk_duration },
         [], true⟩ :=
  ⟨by norm_num, by norm_num,
    (spec_C4_idle_timeout ⟨3/2, 10⟩ (by norm_num) 100 (by norm_num) 1600).1⟩

/-- C5: on a valid 512-sample frame, the inference input is the 64-sample
trailing context prepended to the frame (576 samples); afterwards the
stored context equals the last 64 samples of the frame and the stored
hidden state equals the raw model output state; `reset_states` zeroes
hidden state and context. -/
theorem spec_C5_vad_recurrence (infer : List ℚ → List ℚ → ℚ × List ℚ)
    (s : SileroVAD.State) (frame : List ℚ)
    (hctx : s.context.length = 64) (hlen : frame.length = 512) :
    (s.context ++ frame).length = 576
    ∧ SileroVAD.process infer s frame =
        (⟨(infer (s.context ++ frame) s.state).2, frame.drop 448⟩,
         .ok (infer (s.context ++ frame) s.state).1)
    ∧ frame.drop 448 = frame.drop (frame.length - 64)
    ∧ SileroVAD.reset_states =
        ⟨List.replicate 256 0, List.replicate 64 0⟩ := by
  have hx : (s.context ++ frame).length = 576 := by
    simp [List.length_append, hctx, hlen]
  refine ⟨hx, ?_, ?_, rfl⟩
  · unfold SileroVAD.process
    rw [if_neg (by rw [hlen]; norm_num [SileroVAD.num_samples])]
    have hdrop : (s.context ++ frame).drop
        ((s.context ++ frame).length - SileroVAD.context_size)
        = frame.drop 448 := by
      rw [hx]
      norm_num [SileroVAD.context_size]
      rw [show (512 : ℕ) = s.context.length + 448 by rw [hctx]]
      rw [List.drop_append]
    simp only [hdrop]
  · rw [hlen]

/-- Witness for C5: the recurrence applied to a freshly reset VAD and an
all-zero 512-sample frame, with a constant inference function. -/
theorem spec_C5_witness :
    SileroVAD.process (fun _ st => ((1 : ℚ)/2, st)) SileroVAD.reset_states
        (List.replicate 512 (0 : ℚ)) =
      (⟨List.replicate 256 0, List.replicate 64 0⟩, .ok (1/2)) := by
  have h := (spec_C5_vad_recurrence (fun _ st => ((1 : ℚ)/2, st))
    SileroVAD.reset_states (List.replicate 512 0)
    (by rw [SileroVAD.reset_states]
        simp only [List.length_replicate, SileroVAD.context_size])
    (by simp only [List.length_replicate])).2.1
  rw [h]
  simp only [SileroVAD.reset_states, List.drop_replicate]

/-- C6: a frame whose length is not exactly 512 makes `process` fail with
the invalid-frame-size error, leaving hidden state and context unchanged
and performing no inference; a 512-sample frame is processed without
error, the whole frame entering inference behind the context (no
truncation or padding). -/
theorem spec_C6_frame_size (infer : List ℚ → List ℚ → ℚ × List ℚ)
    (s : SileroVAD.State) :
    (∀ frame : List ℚ, frame.length ≠ 512 →
      SileroVAD.process infer s frame
        = (s, .error "InvalidFrameSize: expected 512 samples"))
    ∧ (∀ frame : List ℚ, frame.length = 512 →
      SileroVAD.process infer s frame
        = (⟨(infer (s.context ++ frame) s.state).2,
            (s.context ++ frame).drop
              ((s.context ++ frame).length - SileroVAD.context_size)⟩,
           .ok (infer (s.context ++ frame) s.state).1)) := by
  constructor
  · intro frame hne
    unfold SileroVAD.process
    rw [if_pos (by rw [SileroVAD.num_samples]; exact hne)]
  · intro frame heq
    unfold SileroVAD.process
    rw [if_neg (by rw [heq]; norm_num [SileroVAD.num_samples])]

/-- Witness for C6: a one-sample frame fails with the invalid-frame-size
error and leaves the state untouched, while a full 512-sample frame is
accepted. -/
theorem spec_C6_witness :
    (SileroVAD.process (fun _ st => ((0 : ℚ), st)) SileroVAD.reset_states [(1 : ℚ)]
      = (SileroVAD.reset_states, .error "InvalidFrameSize: expected 512 samples"))
    ∧ SileroVAD.process (fun _ st => ((0 : ℚ), st)) SileroVAD.reset_states
        (List.replicate 512 (0 : ℚ))
      = (⟨SileroVAD.reset_states.state,
          (SileroVAD.reset_states.context ++ List.replicate 512 (0 : ℚ)).drop
            ((SileroVAD.reset_states.context
              ++ List.replicate 512 (0 : ℚ)).length - SileroVAD.context_size)⟩,
         .ok 0) :=
  ⟨(spec_C6_frame_size (fun _ st => ((0 : ℚ), st)) SileroVAD.reset_states).1
     [(1 : ℚ)] (by norm_num),
   (spec_C6_frame_size (fun _ st => ((0 : ℚ), st)) SileroVAD.reset_states).2
     (List.replicate 512 (0 : ℚ)) (by rw [List.length_replicate])⟩

/-! ## Recognition and enhancement pipeline (`src/transcription.py`) -/

/-- Outcome of the `recognizer.recognize_google` call: recognized text,
`sr.UnknownValueError` (speech not understood), or `sr.RequestError`
(service/transport failure). -/
inductive RecognizeOutcome where
  | understood (text : String)
  | unknownValue
  | requestError (msg : String)
deriving DecidableEq, Repr

/-- The result dict of `transcribe_with_google`. -/
structure GoogleResult where
  text : String
  language : String
deriving DecidableEq, Repr

/-- Function `transcribe_with_google` (`src/transcription.py` lines 97–157) with the
recognizer call abstracted by its outcome: recognized text is stripped and
returned; `UnknownValueError` yields a successful result with empty text;
`RequestError` raises (the inner handler wraps it as a service error, the
outer handler wraps that again). -/
def transcribe_with_google (outcome : RecognizeOutcome)
    (language : Option String) : Except String GoogleResult :=
  match outcome with
  | .understood t => .ok ⟨t.trim, language.getD "auto"⟩
  | .unknownValue => .ok ⟨"", language.getD "unknown"⟩
  | .requestError e =>
      .error ("Google transcription failed: Google Speech Recognition service error: " ++ e)

/-- Function `transcribe_audio` (`src/transcription.py` lines 250–313) with the
collaborators abstracted: `warning` from `process_audio`, `whisper` the
outcome of `transcribe_with_whisper` (raised errors land in the outer
handler), `ollama_outcome` the outcome of `process_with_ollama` when
enhancement runs. -/
def transcribe_audio (audio_tuple : Option (List ℚ)) (warning : Option String)
    (whisper : Except String (String × String)) (use_ollama : Bool)
    (ollama_outcome : Except String String) : String × String :=
  match audio_tuple with
  | none => ("", "Error: No audio recorded. Please record audio first.")
  | some audio_data =>
    if audio_data.length = 0 then
      ("", "Error: Empty audio. Please record some audio.")
    else
      let status := "Processing audio..."
      let status := match warning with
        | some w => status ++ "\n" ++ w
        | none => status
      let status := status ++ "\nTranscribing with Whisper..."
      match whisper with
      | .error e => ("", "Error: " ++ e)
      | .ok (transcription, detected_lang) =>
        if use_ollama ∧ transcription ≠ "" then
          let status := status ++ "\nEnhancing with Ollama..."
          match ollama_outcome with
          | .ok enhanced =>
              (enhanced, status ++ "\n✓ Complete! (Language: " ++ detected_lang
                ++ ", Enhanced with Ollama)")
          | .error e =>
              (transcription,
               status ++ "\n✓ Transcription complete (Language: " ++ detected_lang
                 ++ ")" ++ "\n⚠ Ollama enhancement failed: " ++ e)
        else
          (transcription,
           status ++ "\n✓ Complete! (Language: " ++ detected_lang ++ ")")

/-- C7: an unrecognized-speech outcome is returned as a successful result
with empty text (never an error); a service failure raises; recognized
text is returned stripped — so unrecognized speech is never surfaced as a
failure. -/
theorem spec_C7_recognition_outcomes (language : Option String) (e t : String) :
    transcribe_with_google .unknownValue language
        = .ok ⟨"", language.getD "unknown"⟩
    ∧ (transcribe_with_google (.requestError e) language).isOk = false
    ∧ transcribe_with_google (.understood t) language
        = .ok ⟨t.trim, language.getD "auto"⟩ :=
  ⟨rfl, rfl, rfl⟩

/-- C8: with enhancement enabled, an enhancement failure leaves the
recognized text unchanged as the returned transcription and reports the
failure only as a warning appended to the status — never an error
result. -/
theorem spec_C8_enhancement_recovery (audio_data : List ℚ)
    (ha : audio_data.length ≠ 0) (warning : Option String)
    (t lang e : String) (ht : t ≠ "") :
    transcribe_audio (some audio_data) warning (.ok (t, lang)) true (.error e)
      = (t, (match warning with
              | some w => "Processing audio..." ++ "\n" ++ w
              | none => "Processing audio...")
            ++ "\nTranscribing with Whisper..." ++ "\nEnhancing with Ollama..."
            ++ "\n✓ Transcription complete (Language: " ++ lang ++ ")"
            ++ "\n⚠ Ollama enhancement failed: " ++ e) := by
  simp only [transcribe_audio]
  rw [if_neg ha]
  rw [if_pos]
  · exact ⟨trivial, ht⟩

/-- Witness for C8: a concrete run with non-empty audio and recognized
text and a failing enhancer. -/
theorem spec_C8_witness :
    transcribe_audio (some [(0 : ℚ)]) none (.ok ("hello", "en")) true
        (.error "Ollama is not running. Please start Ollama first.")
      = ("hello",
         "Processing audio..." ++ "\nTranscribing with Whisper..."
           ++ "\nEnhancing with Ollama..."
           ++ "\n✓ Transcription complete (Language: " ++ "en" ++ ")"
           ++ "\n⚠ Ollama enhancement failed: "
           ++ "Ollama is not running. Please start Ollama first.") :=
  spec_C8_enhancement_recovery [(0 : ℚ)] (by norm_num) none "hello" "en"
    "Ollama is not running. Please start Ollama first." (by decide)

/-! ## Overlay auto-hide (`overlay.py`, `FloatingOverlay._auto_hide`) -/

/-- The overlay state `_auto_hide` touches: whether `self.overlay` exists,
`self.is_visible`, the pending `self._hide_timer` handle, and a count of
`withdraw()` calls issued (to observe double-hiding). -/
structure FloatingOverlay where
  overlay_exists : Bool
  is_visible : Bool
  hide_timer : Option ℕ
  withdraw_count : ℕ
deriving DecidableEq, Repr

/-- Method `FloatingOverlay._auto_hide` (`overlay.py` lines 210–215): if the
overlay exists and is visible, withdraw it and mark it invisible; in
every case clear the timer handle. -/
def FloatingOverlay.auto_hide (o : FloatingOverlay) : FloatingOverlay :=
  let o := if o.overlay_exists ∧ o.is_visible then
      { o with is_visible := false, withdraw_count := o.withdraw_count + 1 }
    else o
  { o with hide_timer := none }

/-- C9: the overlay auto-hide step is idempotent — a second invocation
with no intervening text update changes nothing and issues no further
withdraw — and after one invocation the timer handle is cleared and (when
the overlay exists) the overlay is hidden. -/
theorem spec_C9_auto_hide_idempotent (o : FloatingOverlay) :
    FloatingOverlay.auto_hide (FloatingOverlay.auto_hide o)
        = FloatingOverlay.auto_hide o
    ∧ (FloatingOverlay.auto_hide o).hide_timer = none
    ∧ (o.overlay_exists = true →
        (FloatingOverlay.auto_hide o).is_visible = false)
    ∧ (FloatingOverlay.auto_hide (FloatingOverlay.auto_hide o)).withdraw_count
        = (FloatingOverlay.auto_hide o).withdraw_count := by
  by_cases h : o.overlay_exists = true ∧ o.is_visible = true
  · simp only [FloatingOverlay.auto_hide, if_pos h]
    simp
  · simp only [FloatingOverlay.auto_hide, if_neg h]
    refine ⟨?_, trivial, ?_, trivial⟩
    · simp
    · intro hex
      have hvis : o.is_visible = false := by
        cases hv : o.is_visible
        · rfl
        · exact absurd ⟨hex, hv⟩ h
      simp [hvis]

/-- Witness for C9: the idempotence and hiding applied at a visible
overlay with a pending timer. -/
theorem spec_C9_witness :
    FloatingOverlay.auto_hide (FloatingOverlay.auto_hide ⟨true, true, some 5, 0⟩)
        = FloatingOverlay.auto_hide ⟨true, true, some 5, 0⟩
    ∧ (FloatingOverlay.auto_hide ⟨true, true, some 5, 0⟩).hide_timer = none
    ∧ (FloatingOverlay.auto_hide ⟨true, true, some 5, 0⟩).is_visible = false
    ∧ (FloatingOverlay.auto_hide (FloatingOverlay.auto_hide
          ⟨true, true, some 5, 0⟩)).withdraw_count
        = (FloatingOverlay.auto_hide ⟨true, true, some 5, 0⟩).withdraw_count :=
  ⟨(spec_C9_auto_hide_idempotent ⟨true, true, some 5, 0⟩).1,
   (spec_C9_auto_hide_idempotent ⟨true, true, some 5, 0⟩).2.1,
   (spec_C9_auto_hide_idempotent ⟨true, true, some 5, 0⟩).2.2.1 rfl,
   (spec_C9_auto_hide_idempotent ⟨true, true, some 5, 0⟩).2.2.2⟩

/-- C10 (amended): with the Silero backend active the check evaluates only
the consecutive full 512-sample frames at the start of the chunk — any
trailing samples beyond the last full frame never influence the result —
and a chunk shorter than 512 samples yields no frame, performs no VAD
evaluation (the VAD state is untouched), and returns false whenever the
configured VAD threshold is positive (with a zero threshold the
`max_prob >= threshold` comparison `0 >= 0` makes it return true). -/
theorem spec_C10_frame_slicing {σ : Type} (step : σ → List ℚ → ℚ × σ)
    (vad_threshold : ℚ) (s : σ) :
    (∀ (full rest : List ℚ), 512 ∣ full.length → rest.length < 512 →
      check_voice_activity step vad_threshold s (full ++ rest)
        = check_voice_activity step vad_threshold s full)
    ∧ (∀ audio_chunk : List ℚ, audio_chunk.length < 512 →
        framesOf audio_chunk = []
        ∧ (0 < vad_threshold →
            check_voice_activity step vad_threshold s audio_chunk = (false, s))) := by
  constructor
  · intro full rest hdvd hrest
    unfold check_voice_activity
    rw [framesOf_append full rest hdvd hrest]
  · intro audio_chunk hshort
    refine ⟨framesOf_eq_nil hshort, fun hth => ?_⟩
    unfold check_voice_activity
    rw [framesOf_eq_nil hshort]
    simp only [vadMaxProb]
    rw [decide_eq_false (not_le.mpr hth)]

/-- Witness for C10: a 512-sample frame plus one trailing sample gives the
same verdict as the bare frame, and a 1-sample chunk with the default
0.5 threshold is classified as silence with the state untouched. -/
theorem spec_C10_witness :
    ((512 : ℕ) ∣ (List.replicate 512 (0 : ℚ)).length)
    ∧ check_voice_activity (fun (s : Unit) _ => ((1 : ℚ), s)) (1/2) ()
        (List.replicate 512 (0 : ℚ) ++ [(7 : ℚ)])
      = check_voice_activity (fun (s : Unit) _ => ((1 : ℚ), s)) (1/2) ()
        (List.replicate 512 (0 : ℚ))
    ∧ check_voice_activity (fun (s : Unit) _ => ((1 : ℚ), s)) (1/2) () [(7 : ℚ)]
      = (false, ()) :=
  ⟨by rw [List.length_replicate],
   (spec_C10_frame_slicing (fun (s : Unit) _ => ((1 : ℚ), s)) (1/2) ()).1
     (List.replicate 512 (0 : ℚ)) [(7 : ℚ)]
     (by rw [List.length_replicate]) (by norm_num),
   ((spec_C10_frame_slicing (fun (s : Unit) _ => ((1 : ℚ), s)) (1/2) ()).2
     [(7 : ℚ)] (by norm_num)).2 (by norm_num)⟩

/-- Counterexample to C10 as stated: with the VAD threshold configured to
0 (the settings slider ranges from 0.0), a 1-sample chunk — too short for
any frame — still makes the check return true, not false. -/
theorem spec_C10_counterexample :
    check_voice_activity (fun (s : Unit) _ => ((0 : ℚ), s)) 0 () [(1 : ℚ)]
      = (true, ()) := by
  unfold check_voice_activity
  rw [framesOf_eq_nil (by norm_num)]
  simp [vadMaxProb]

end Woice
